import Mathlib

/-!
Verification of the cirmcut circuit-simulator core (`src/sim/src`): a shallow
embedding of `map.rs`, `stamp.rs` and `solver.rs` over exact rationals.

Conventions of the embedding:
* `f64` values are modelled as `ℚ`.  The transcendental `diode_eq`
  (stamp.rs lines 291-307, which uses `exp` over `f64`) is passed as a
  parameter `diodeEq : ℚ → ℚ × ℚ`; the claims below never depend on its
  numeric values.  `NaN`/`Inf` are not representable in `ℚ`; the only place
  the source inspects them (`bicg`'s `is_nan` panic) is noted at its
  definition.
* A Rust panic (slice out of bounds, `Option::unwrap` on `None`) is modelled
  by `Option.none` inside the stamping layer and by `Outcome.crash` at the
  solver layer; `Result::Err(msg)` is `Outcome.err msg`.
* The sparse triplet matrix (`rsparse::data::Trpl`) is the append-ordered
  list of `(row, col, value)` triplets; duplicate entries sum, which the
  dense `residualVec` below reproduces.
* The external linear solvers (`rsparse::lusol`, the `gmres` crate) are not
  repository code; they are abstracted as function parameters.
-/

set_option maxRecDepth 10000

attribute [local semireducible] Rat.add Rat.sub Rat.mul Rat.inv

abbrev Triplet : Type := ℕ × ℕ × ℚ

/-- `TwoTerminalComponent` from lib.rs lines 40-55.  The `stamp.rs` match
(line 238) and the frontend additionally use a `CurrentSource` variant, so it
is included; `Inductor` carries a single inductance, exactly as in the
source. -/
inductive TwoTerminalComponent : Type where
  | wire : TwoTerminalComponent
  | resistor : ℚ → TwoTerminalComponent
  | inductor : ℚ → TwoTerminalComponent
  | capacitor : ℚ → TwoTerminalComponent
  | diode : TwoTerminalComponent
  | battery : ℚ → TwoTerminalComponent
  | switch : Bool → TwoTerminalComponent
  | currentSource : ℚ → TwoTerminalComponent
  deriving DecidableEq, Repr

/-- `ThreeTerminalComponent` from lib.rs lines 57-62 (the payload is the
unused beta). -/
inductive ThreeTerminalComponent : Type where
  | pTransistor : ℚ → ThreeTerminalComponent
  | nTransistor : ℚ → ThreeTerminalComponent
  deriving DecidableEq, Repr

/-- `PrimitiveDiagram` from lib.rs lines 10-14. -/
structure PrimitiveDiagram : Type where
  numNodes : ℕ
  twoTerminal : List ((ℕ × ℕ) × TwoTerminalComponent)
  threeTerminal : List ((ℕ × ℕ × ℕ) × ThreeTerminalComponent)
  deriving Repr

/-- `PrimitiveDiagramStateVectorMapping` from map.rs lines 8-12. -/
structure PrimitiveDiagramStateVectorMapping : Type where
  nCurrents : ℕ
  nVoltageDrops : ℕ
  nVoltages : ℕ
  deriving DecidableEq, Repr

/-- `PrimitiveDiagramParameterMapping` from map.rs lines 17-21. -/
structure PrimitiveDiagramParameterMapping : Type where
  nComponents : ℕ
  nCurrentLaws : ℕ
  nVoltageLaws : ℕ
  deriving DecidableEq, Repr

/-- `PrimitiveDiagramMapping` from map.rs lines 24-27. -/
structure PrimitiveDiagramMapping : Type where
  stateMap : PrimitiveDiagramStateVectorMapping
  paramMap : PrimitiveDiagramParameterMapping
  deriving DecidableEq, Repr

/-- `PrimitiveDiagramStateVectorMapping::new` (map.rs lines 72-78);
`saturating_sub(1)` is ℕ subtraction. -/
def PrimitiveDiagramStateVectorMapping.new (d : PrimitiveDiagram) :
    PrimitiveDiagramStateVectorMapping where
  nCurrents := d.twoTerminal.length
  nVoltageDrops := d.twoTerminal.length
  nVoltages := d.numNodes - 1

/-- `PrimitiveDiagramParameterMapping::new` (map.rs lines 44-50). -/
def PrimitiveDiagramParameterMapping.new (d : PrimitiveDiagram) :
    PrimitiveDiagramParameterMapping where
  nComponents := d.twoTerminal.length
  nCurrentLaws := d.numNodes - 1
  nVoltageLaws := d.twoTerminal.length

/-- `PrimitiveDiagramMapping::new` (map.rs lines 30-35). -/
def PrimitiveDiagramMapping.new (d : PrimitiveDiagram) : PrimitiveDiagramMapping where
  stateMap := PrimitiveDiagramStateVectorMapping.new d
  paramMap := PrimitiveDiagramParameterMapping.new d

/-- `total_len` for the state map (map.rs lines 94-96). -/
def PrimitiveDiagramStateVectorMapping.totalLen
    (m : PrimitiveDiagramStateVectorMapping) : ℕ :=
  m.nCurrents + m.nVoltages + m.nVoltageDrops

/-- `total_len` for the parameter map (map.rs lines 66-68). -/
def PrimitiveDiagramParameterMapping.totalLen
    (m : PrimitiveDiagramParameterMapping) : ℕ :=
  m.nCurrentLaws + m.nVoltageLaws + m.nComponents

/-- `vector_size` (map.rs lines 37-40): returns the state map's total length
(the `debug_assert_eq` there is exactly claim C9). -/
def PrimitiveDiagramMapping.vectorSize (m : PrimitiveDiagramMapping) : ℕ :=
  m.stateMap.totalLen

/-- `currents().nth(k)` (map.rs line 80-82): `Range<usize>` iterator `nth`. -/
def PrimitiveDiagramStateVectorMapping.currentsNth
    (m : PrimitiveDiagramStateVectorMapping) (k : ℕ) : Option ℕ :=
  if k < m.nCurrents then some k else none

/-- `voltage_drops().nth(k)` (map.rs lines 84-87). -/
def PrimitiveDiagramStateVectorMapping.voltageDropsNth
    (m : PrimitiveDiagramStateVectorMapping) (k : ℕ) : Option ℕ :=
  if k < m.nVoltageDrops then some (m.nCurrents + k) else none

/-- `voltages().nth(k)` (map.rs lines 89-92). -/
def PrimitiveDiagramStateVectorMapping.voltagesNth
    (m : PrimitiveDiagramStateVectorMapping) (k : ℕ) : Option ℕ :=
  if k < m.nVoltages then some (m.nCurrents + m.nVoltageDrops + k) else none

/-- `components().nth(k)` (map.rs lines 52-54). -/
def PrimitiveDiagramParameterMapping.componentsNth
    (m : PrimitiveDiagramParameterMapping) (k : ℕ) : Option ℕ :=
  if k < m.nComponents then some k else none

/-- `current_laws().nth(k)` (map.rs lines 56-59). -/
def PrimitiveDiagramParameterMapping.currentLawsNth
    (m : PrimitiveDiagramParameterMapping) (k : ℕ) : Option ℕ :=
  if k < m.nCurrentLaws then some (m.nComponents + k) else none

/-- `voltage_laws().nth(k)` (map.rs lines 61-64). -/
def PrimitiveDiagramParameterMapping.voltageLawsNth
    (m : PrimitiveDiagramParameterMapping) (k : ℕ) : Option ℕ :=
  if k < m.nVoltageLaws then some (m.nComponents + m.nCurrentLaws + k) else none

/-- Bounds-checked write `xs[i] = v`: a Rust index-assignment that panics
(`none`) when `i` is out of bounds. -/
def setAt (xs : List ℚ) (i : ℕ) (v : ℚ) : Option (List ℚ) :=
  if i < xs.length then some (xs.set i v) else none

/-- Stamping of one two-terminal component's constitutive-law row: the
`match component` block of `stamp_timestep` (stamp.rs lines 167-242).
`offset`/`prevOff` are the `offset`/`prev_timestep_offset` of lines 54-55,
`law`/`cur`/`vd` the unwrapped indices of lines 162-165, `params` the
mutable slice passed to `stamp_timestep`. -/
def stampComponent (diodeEq : ℚ → ℚ × ℚ) (dt : ℚ) (map : PrimitiveDiagramMapping)
    (offset prevOff law cur vd : ℕ) (nodes : ℕ × ℕ)
    (lastIter : List ℚ) (lastTs : Option (List ℚ))
    (tr : List Triplet) (params : List ℚ) :
    TwoTerminalComponent → Option (List Triplet × List ℚ)
  | .resistor r =>
      some (tr ++ [(offset + law, offset + cur, -r), (offset + law, offset + vd, 1)], params)
  | .wire =>
      -- lines 172-184: appends only on the connected nodes' voltage columns
      let tr := match map.stateMap.voltagesNth nodes.2 with
        | some vi => tr ++ [(offset + law, offset + vi, 1)]
        | none => tr
      let tr := match map.stateMap.voltagesNth nodes.1 with
        | some vi => tr ++ [(offset + law, offset + vi, -1)]
        | none => tr
      some (tr, params)
  | .switch isOpen =>
      if isOpen then some (tr ++ [(offset + law, offset + cur, 1)], params)
      else some (tr ++ [(offset + law, offset + vd, 1)], params)
  | .battery v => do
      let p ← setAt params (offset + law) v
      some (tr ++ [(offset + law, offset + vd, -1)], p)
  | .capacitor c =>
      let tr := tr ++ [(offset + law, offset + cur, -dt), (offset + law, offset + vd, c)]
      match lastTs with
      | some ts => do
          -- line 217 reads `last_timestep[voltage_drop_idx]` without offset
          let v ← ts.get? vd
          let p ← setAt params (offset + law) (v * c)
          some (tr, p)
      | none => some (tr ++ [(offset + law, prevOff + vd, -c)], params)
  | .inductor l =>
      let tr := tr ++ [(offset + law, offset + vd, dt), (offset + law, offset + cur, -l)]
      match lastTs with
      | some ts => do
          -- line 227 reads `last_timestep[current_idx]` without offset
          let v ← ts.get? cur
          let p ← setAt params (offset + law) (-v * l)
          some (tr, p)
      | none => some (tr ++ [(offset + law, prevOff + cur, l)], params)
  | .diode => do
      let v0 ← lastIter.get? (offset + vd)
      let cp := diodeEq v0
      let p ← setAt params (offset + law) cp.2
      some (tr ++ [(offset + law, offset + vd, cp.1), (offset + law, offset + cur, 1)], p)
  | .currentSource i => do
      let p ← setAt params (offset + law) i
      some (tr ++ [(offset + law, offset + cur, 1)], p)

/-- Stamping of one transistor's two constitutive-law rows: the
`match component` block of stamp.rs lines 258-285 (`af = 0.98`,
`ar = 0.1`). -/
def stampTransistor (diodeEq : ℚ → ℚ × ℚ) (offset : ℕ)
    (abLaw abCur abVd bcLaw bcCur bcVd : ℕ) (lastIter : List ℚ)
    (tr : List Triplet) (params : List ℚ) (c : ThreeTerminalComponent) :
    Option (List Triplet × List ℚ) := do
  let sign : ℚ := match c with
    | .nTransistor _ => 1
    | .pTransistor _ => -1
  let vab ← lastIter.get? (offset + abVd)
  let ab := diodeEq (sign * vab)
  let vbc ← lastIter.get? (offset + bcVd)
  let bc := diodeEq (-sign * vbc)
  let iab ← lastIter.get? (offset + abCur)
  let ibc ← lastIter.get? (offset + bcCur)
  let paramAb := ab.2 + (1 / 10) * ibc
  let paramBc := bc.2 + (49 / 50) * iab
  let tr := tr ++ [(offset + abLaw, offset + abVd, ab.1), (offset + abLaw, offset + abCur, 1)]
  let p ← setAt params (offset + abLaw) paramAb
  let tr := tr ++ [(offset + bcLaw, offset + bcVd, bc.1), (offset + bcLaw, offset + bcCur, 1)]
  let p ← setAt p (offset + bcLaw) paramBc
  some (tr, p)

/-- Current-law stamping for the two-terminal list (stamp.rs lines 58-71);
the counter is `total_current_idx` and the final value is returned for the
three-terminal loop to continue from. -/
def currentLawsTwo (map : PrimitiveDiagramMapping) (offset : ℕ) :
    List ((ℕ × ℕ) × TwoTerminalComponent) → ℕ → List Triplet →
    Option (List Triplet × ℕ)
  | [], idx, tr => some (tr, idx)
  | ((b, e), _) :: rest, idx, tr => do
    let cur ← map.stateMap.currentsNth idx
    let tr := match map.paramMap.currentLawsNth e with
      | some l => tr ++ [(offset + l, offset + cur, 1)]
      | none => tr
    let tr := match map.paramMap.currentLawsNth b with
      | some l => tr ++ [(offset + l, offset + cur, -1)]
      | none => tr
    currentLawsTwo map offset rest (idx + 1) tr

/-- Current-law stamping for the three-terminal list (stamp.rs lines
73-94): two current slots are unwrapped per component. -/
def currentLawsThree (map : PrimitiveDiagramMapping) (offset : ℕ) :
    List ((ℕ × ℕ × ℕ) × ThreeTerminalComponent) → ℕ → List Triplet →
    Option (List Triplet × ℕ)
  | [], idx, tr => some (tr, idx)
  | ((a, b, c), _) :: rest, idx, tr => do
    let iab ← map.stateMap.currentsNth idx
    let ibc ← map.stateMap.currentsNth (idx + 1)
    let tr := match map.paramMap.currentLawsNth a with
      | some l => tr ++ [(offset + l, offset + iab, 1)]
      | none => tr
    let tr := match map.paramMap.currentLawsNth b with
      | some l => tr ++ [(offset + l, offset + iab, -1), (offset + l, offset + ibc, 1)]
      | none => tr
    let tr := match map.paramMap.currentLawsNth c with
      | some l => tr ++ [(offset + l, offset + ibc, -1)]
      | none => tr
    currentLawsThree map offset rest (idx + 2) tr

/-- Voltage-law stamping for the two-terminal list (stamp.rs lines
97-118). -/
def voltageLawsTwo (map : PrimitiveDiagramMapping) (offset : ℕ) :
    List ((ℕ × ℕ) × TwoTerminalComponent) → ℕ → List Triplet →
    Option (List Triplet × ℕ)
  | [], idx, tr => some (tr, idx)
  | ((b, e), _) :: rest, idx, tr => do
    let law ← map.paramMap.voltageLawsNth idx
    let vd ← map.stateMap.voltageDropsNth idx
    let tr := tr ++ [(offset + law, offset + vd, 1)]
    let tr := match map.stateMap.voltagesNth e with
      | some v => tr ++ [(offset + law, offset + v, 1)]
      | none => tr
    let tr := match map.stateMap.voltagesNth b with
      | some v => tr ++ [(offset + law, offset + v, -1)]
      | none => tr
    voltageLawsTwo map offset rest (idx + 1) tr

/-- Voltage-law stamping for the three-terminal list (stamp.rs lines
120-157). -/
def voltageLawsThree (map : PrimitiveDiagramMapping) (offset : ℕ) :
    List ((ℕ × ℕ × ℕ) × ThreeTerminalComponent) → ℕ → List Triplet →
    Option (List Triplet × ℕ)
  | [], idx, tr => some (tr, idx)
  | ((a, b, c), _) :: rest, idx, tr => do
    let abLaw ← map.paramMap.voltageLawsNth idx
    let abVd ← map.stateMap.voltageDropsNth idx
    let tr := tr ++ [(offset + abLaw, offset + abVd, 1)]
    let bcLaw ← map.paramMap.voltageLawsNth (idx + 1)
    let bcVd ← map.stateMap.voltageDropsNth (idx + 1)
    let tr := tr ++ [(offset + bcLaw, offset + bcVd, 1)]
    let tr := match map.stateMap.voltagesNth a with
      | some v => tr ++ [(offset + abLaw, offset + v, 1)]
      | none => tr
    let tr := match map.stateMap.voltagesNth b with
      | some v => tr ++ [(offset + abLaw, offset + v, -1), (offset + bcLaw, offset + v, 1)]
      | none => tr
    let tr := match map.stateMap.voltagesNth c with
      | some v => tr ++ [(offset + bcLaw, offset + v, -1)]
      | none => tr
    voltageLawsThree map offset rest (idx + 2) tr

/-- Component-row stamping for the two-terminal list (stamp.rs lines
160-245): unwraps `law`/`current`/`voltage_drop` indices at `total_idx`,
then delegates to the per-kind match (`stampComponent`). -/
def componentsTwo (diodeEq : ℚ → ℚ × ℚ) (dt : ℚ) (map : PrimitiveDiagramMapping)
    (offset prevOff : ℕ) (lastIter : List ℚ) (lastTs : Option (List ℚ)) :
    List ((ℕ × ℕ) × TwoTerminalComponent) → ℕ → List Triplet → List ℚ →
    Option (List Triplet × List ℚ × ℕ)
  | [], idx, tr, params => some (tr, params, idx)
  | (nodes, comp) :: rest, idx, tr, params => do
    let law ← map.paramMap.componentsNth idx
    let cur ← map.stateMap.currentsNth idx
    let vd ← map.stateMap.voltageDropsNth idx
    let (tr, params) ←
      stampComponent diodeEq dt map offset prevOff law cur vd nodes lastIter lastTs tr params comp
    componentsTwo diodeEq dt map offset prevOff lastIter lastTs rest (idx + 1) tr params

/-- Component-row stamping for the three-terminal list (stamp.rs lines
247-286). -/
def componentsThree (diodeEq : ℚ → ℚ × ℚ) (map : PrimitiveDiagramMapping)
    (offset : ℕ) (lastIter : List ℚ) :
    List ((ℕ × ℕ × ℕ) × ThreeTerminalComponent) → ℕ → List Triplet → List ℚ →
    Option (List Triplet × List ℚ × ℕ)
  | [], idx, tr, params => some (tr, params, idx)
  | (_, comp) :: rest, idx, tr, params => do
    let abLaw ← map.paramMap.componentsNth idx
    let abCur ← map.stateMap.currentsNth idx
    let abVd ← map.stateMap.voltageDropsNth idx
    let bcLaw ← map.paramMap.componentsNth (idx + 1)
    let bcCur ← map.stateMap.currentsNth (idx + 1)
    let bcVd ← map.stateMap.voltageDropsNth (idx + 1)
    let (tr, params) ←
      stampTransistor diodeEq offset abLaw abCur abVd bcLaw bcCur bcVd lastIter tr params comp
    componentsThree diodeEq map offset lastIter rest (idx + 2) tr params

/-- `stamp_timestep` (stamp.rs lines 42-287).  `params` is the mutable
sub-slice handed over by `stamp`; `tr` is the shared triplet matrix;
`n = vector_size * n_timesteps`, `offset = n * time_step_idx` and
`prev_timestep_offset = (n - 1) * time_step_idx` exactly as in lines
53-55. -/
def stampTimestep (diodeEq : ℚ → ℚ × ℚ) (params : List ℚ) (tr : List Triplet)
    (timeStepIdx : ℕ) (dt : ℚ) (map : PrimitiveDiagramMapping)
    (d : PrimitiveDiagram) (lastIter : List ℚ) (lastTs : Option (List ℚ))
    (nTimesteps : ℕ) : Option (List Triplet × List ℚ) := do
  let n := map.vectorSize * nTimesteps
  let offset := n * timeStepIdx
  let prevOff := (n - 1) * timeStepIdx
  let (tr, ci) ← currentLawsTwo map offset d.twoTerminal 0 tr
  let (tr, _) ← currentLawsThree map offset d.threeTerminal ci tr
  let (tr, vi) ← voltageLawsTwo map offset d.twoTerminal 0 tr
  let (tr, _) ← voltageLawsThree map offset d.threeTerminal vi tr
  let (tr, params, ti) ←
    componentsTwo diodeEq dt map offset prevOff lastIter lastTs d.twoTerminal 0 tr params
  let (tr, params, _) ← componentsThree diodeEq map offset lastIter d.threeTerminal ti tr params
  some (tr, params)

/-- Per-block loop of `stamp` (stamp.rs lines 25-37): block `k` receives the
mutable params slice `params[k*n .. k*(n+1)]` (line 27; `n` is the FULL
window length `vector_size * n_timesteps`), which is re-sliced with a Rust
bounds check, and `last_timestep` only for `k = 0` (line 34). -/
def stampLoop (diodeEq : ℚ → ℚ × ℚ) (dt : ℚ) (map : PrimitiveDiagramMapping)
    (d : PrimitiveDiagram) (lastIter lastTs : List ℚ) (n nTimesteps : ℕ) :
    List ℕ → List Triplet → List ℚ → Option (List Triplet × List ℚ)
  | [], tr, params => some (tr, params)
  | k :: rest, tr, params =>
    let a := k * n
    let b := k * (n + 1)
    if a ≤ b ∧ b ≤ params.length then do
      let sub := (params.drop a).take (b - a)
      let (tr', sub') ← stampTimestep diodeEq sub tr k dt map d lastIter
        (if k = 0 then some lastTs else none) nTimesteps
      stampLoop diodeEq dt map d lastIter lastTs n nTimesteps rest tr'
        (params.take a ++ sub' ++ params.drop b)
    else none

/-- `stamp` (stamp.rs lines 13-40): allocates `params = vec![0; n]` with
`n = vector_size * n_timesteps` and stamps each block; the conversion
`matrix.to_sprs()` (summing duplicate triplets) is kept as the triplet
list, which `residualVec` below sums. -/
def stamp (diodeEq : ℚ → ℚ × ℚ) (dt : ℚ) (map : PrimitiveDiagramMapping)
    (d : PrimitiveDiagram) (lastIter lastTs : List ℚ) (nTimesteps : ℕ) :
    Option (List Triplet × List ℚ) :=
  stampLoop diodeEq dt map d lastIter lastTs (map.vectorSize * nTimesteps) nTimesteps
    (List.range nTimesteps) [] (List.replicate (map.vectorSize * nTimesteps) 0)

/-- Result of a Rust call that may panic (`crash`), return `Err(msg)`
(`err`), or return `Ok` (`ok`). -/
inductive Outcome (α : Type) : Type where
  | crash : Outcome α
  | err : String → Outcome α
  | ok : α → Outcome α
  deriving DecidableEq, Repr

/-- `SolverMode` (solver.rs lines 15-19). -/
inductive SolverMode : Type where
  | linear : SolverMode
  | newtonRaphson : SolverMode
  deriving DecidableEq, Repr

/-- `SolverConfig` (solver.rs lines 23-34); the `linear_sol` selection is
replaced by the abstract `linSolve` parameter threaded through the solver
functions. -/
structure SolverConfig : Type where
  maxNrIters : ℕ
  nrStepSize : ℚ
  nrTolerance : ℚ
  dxSolnTolerance : ℚ
  mode : SolverMode
  nTimesteps : ℕ
  deriving DecidableEq, Repr

/-- Dense value of row `i` of the sparse product `matrix * x` (the
`&matrix * &new_state_sparse` of solver.rs line 104): triplets in row `i`
are summed against the state entries, entries beyond the state vector
contribute nothing. -/
def rowDot (mat : List Triplet) (x : List ℚ) (i : ℕ) : ℚ :=
  ((mat.filter (fun t => t.1 = i)).map (fun t => t.2.2 * x.getD t.2.1 0)).sum

/-- Dense form of `b(w) − A(w)·w` (solver.rs lines 95-108): the vector
handed to the linear solve as its right-hand side, of `params` length. -/
def residualVec (mat : List Triplet) (params x : List ℚ) : List ℚ :=
  (List.range params.length).map (fun i => params.getD i 0 - rowDot mat x i)

/-- `new_state.iter_mut().zip(&delta).for_each(|(n, delta)| *n += delta * step)`
(solver.rs line 120): only the first `min` entries change, the tail of the
state is kept. -/
def updateState (st delta : List ℚ) (s : ℚ) : List ℚ :=
  (st.zipWith (fun n d => n + d * s) delta) ++ st.drop delta.length

/-- `prev.iter().cycle().take(total)` (solver.rs line 83): empty input
cycles to the empty list, otherwise the periodic extension. -/
def cycleTake (xs : List ℚ) (total : ℕ) : List ℚ :=
  if xs.isEmpty then [] else (List.range total).map (fun i => xs.getD (i % xs.length) 0)

/-- Newton-Raphson inner loop `for _ in 0..cfg.max_nr_iters` (solver.rs
lines 87-129), with `linSolve` standing for `cfg.linear_sol.solve`.
Returns `ok none` for the early `return Ok(())` when `params` is empty
(line 91-93, leaving the solution buffer untouched) and `ok (some st)` for
a loop exit (break at line 122-124 or exhaustion), after which line 137
assigns the buffer.  The `if err > last_err` branch of lines 114-117 has an
empty body in the source; `lastErr` is threaded but (exactly like the
source) never influences anything. -/
def nrLoop (linSolve : List Triplet → List ℚ → ℚ → Outcome (List ℚ))
    (diodeEq : ℚ → ℚ × ℚ) (dt : ℚ) (map : PrimitiveDiagramMapping)
    (d : PrimitiveDiagram) (cfg : SolverConfig) (prev : List ℚ) :
    ℕ → List ℚ → ℚ → Outcome (Option (List ℚ))
  | 0, st, _ => .ok (some st)
  | fuel + 1, st, lastErr =>
    match stamp diodeEq dt map d st prev cfg.nTimesteps with
    | none => .crash
    | some (mat, params) =>
      if params.length = 0 then .ok none
      else
        match linSolve mat (residualVec mat params st) cfg.dxSolnTolerance with
        | .crash => .crash
        | .err e => .err e
        | .ok delta =>
          let err := (delta.map (fun x => x * x)).sum
          let _ := lastErr
          let st' := updateState st delta cfg.nrStepSize
          if err < cfg.nrTolerance then .ok (some st')
          else nrLoop linSolve diodeEq dt map d cfg prev fuel st' err

/-- `Solver::nr_step` (solver.rs lines 78-140): slices the previous block
`&soln[(cfg.n_timesteps-1)*vs ..]` (panic when the start exceeds the
length), replicates it across the window, runs the Newton loop, and on a
normal exit assigns the final iterate to the solution buffer (the early
empty-params return leaves it unchanged).  `9e99` is the initial
`last_err`. -/
def nrStep (linSolve : List Triplet → List ℚ → ℚ → Outcome (List ℚ))
    (diodeEq : ℚ → ℚ × ℚ) (dt : ℚ) (map : PrimitiveDiagramMapping)
    (d : PrimitiveDiagram) (cfg : SolverConfig) (soln : List ℚ) :
    Outcome (List ℚ) :=
  let total := cfg.nTimesteps * map.vectorSize
  let start := (cfg.nTimesteps - 1) * map.vectorSize
  if start ≤ soln.length then
    let prev := soln.drop start
    let st0 := cycleTake prev total
    match nrLoop linSolve diodeEq dt map d cfg prev cfg.maxNrIters st0 (9 * 10 ^ 99) with
    | .crash => .crash
    | .err e => .err e
    | .ok none => .ok soln
    | .ok (some st) => .ok st
  else .crash

/-- `Solver::linear_step` (solver.rs lines 63-76): the entire
stamp-and-solve body (lines 64-74) is commented out in the source, so the
function returns `Ok(())` having touched nothing. -/
def linearStep (dt : ℚ) (d : PrimitiveDiagram) (cfg : SolverConfig)
    (soln : List ℚ) : Outcome (List ℚ) :=
  let _ := dt
  let _ := d
  let _ := cfg
  .ok soln

/-- `Solver::step` (solver.rs lines 56-61): dispatch on `cfg.mode`; the
returned vector is the solver's `soln_vector` after the call. -/
def step (linSolve : List Triplet → List ℚ → ℚ → Outcome (List ℚ))
    (diodeEq : ℚ → ℚ × ℚ) (dt : ℚ) (map : PrimitiveDiagramMapping)
    (d : PrimitiveDiagram) (cfg : SolverConfig) (soln : List ℚ) :
    Outcome (List ℚ) :=
  match cfg.mode with
  | .newtonRaphson => nrStep linSolve diodeEq dt map d cfg soln
  | .linear => linearStep dt d cfg soln

/-- Dot product of two dense vectors (a 1×n by n×1 sparse product in the
source, e.g. `get_one(&(&rt * &r))`). -/
def dot (u v : List ℚ) : ℚ :=
  (List.zipWith (fun a b => a * b) u v).sum

/-- Dense matrix (list of rows) times column vector. -/
def matVec (a : List (List ℚ)) (x : List ℚ) : List ℚ :=
  a.map (fun row => dot row x)

/-- Row vector times dense matrix (`&xt * at`, `&pt * a`). -/
def rowMat (u : List ℚ) (a : List (List ℚ)) : List ℚ :=
  matVec (List.transpose a) u

/-- Elementwise sum of two vectors. -/
def vecAdd (u v : List ℚ) : List ℚ :=
  List.zipWith (fun a b => a + b) u v

/-- Elementwise difference of two vectors. -/
def vecSub (u v : List ℚ) : List ℚ :=
  List.zipWith (fun a b => a - b) u v

/-- Scalar times vector. -/
def scale (c : ℚ) (u : List ℚ) : List ℚ :=
  u.map (fun a => c * a)

/-- Loop state of `bicg` (solver.rs lines 231-282): the column vectors
`x`, `r`, `p` and their row counterparts `xt`, `rt`, `pt`. -/
structure BicgState : Type where
  x : List ℚ
  xt : List ℚ
  r : List ℚ
  rt : List ℚ
  p : List ℚ
  pt : List ℚ
  deriving DecidableEq, Repr

/-- One hundred-capped iteration loop of `bicg` (solver.rs lines 249-277).
Rational division by zero is total (`q / 0 = 0`); at such points the `f64`
source would instead produce `inf`/`NaN` and later die on the
`res.is_nan()` panic of lines 258-260 — in either semantics no `Err` is
produced.  The `break` on `res < tolerance` (line 261-263) happens before
the updates, exactly as in the source. -/
def bicgLoop (a : List (List ℚ)) (tol : ℚ) : ℕ → BicgState → BicgState
  | 0, s => s
  | fuel + 1, s =>
    let rr := dot s.rt s.r
    let pap := dot s.pt (matVec a s.p)
    let alpha := rr / pap
    let res := dot s.r s.r
    if res < tol then s
    else
      let x := vecAdd s.x (scale alpha s.p)
      let xt := vecAdd s.xt (scale alpha s.pt)
      let r := vecSub s.r (scale alpha (matVec a s.p))
      let rt := vecSub s.rt (scale alpha (rowMat s.pt a))
      let rrNew := dot rt r
      let beta := rrNew / rr
      let p := vecAdd r (scale beta s.p)
      let pt := vecAdd rt (scale beta s.pt)
      bicgLoop a tol fuel ⟨x, xt, r, rt, p, pt⟩

/-- `bicg` (solver.rs lines 231-282): starts from `x = vec![1e-12; n]`,
runs at most 100 iterations, then unconditionally copies `x` into the
output and returns `Ok` — the function has no `Err`-returning path. -/
def bicg (a : List (List ℚ)) (b : List ℚ) (tol : ℚ) : Outcome (List ℚ) :=
  let x0 : List ℚ := List.replicate b.length (1 / 10 ^ 12)
  let atr := List.transpose a
  let r0 := vecSub b (matVec a x0)
  let rt0 := vecSub b (rowMat x0 atr)
  let s := bicgLoop a tol 100 ⟨x0, x0, r0, rt0, r0, rt0⟩
  .ok s.x

/-- `LinearSolver` (solver.rs lines 38-43). -/
inductive LinearSolverChoice : Type where
  | luDecomposition : LinearSolverChoice
  | biconjugateGradient : LinearSolverChoice
  | genMinRes : LinearSolverChoice
  deriving DecidableEq, Repr

/-- `LinearSolver::solve` (solver.rs lines 196-209): dispatch to the chosen
backend, forwarding its `Result` (the timing print is side-effect only).
`lusolFn` and `gmresFn` stand for the external `rsparse::lusol` and
`gmres` crates, which are not repository code. -/
def solveWith (lusolFn gmresFn : List (List ℚ) → List ℚ → ℚ → Outcome (List ℚ)) :
    LinearSolverChoice → List (List ℚ) → List ℚ → ℚ → Outcome (List ℚ)
  | .luDecomposition, a, b, tol => lusolFn a b tol
  | .biconjugateGradient, a, b, tol => bicg a b tol
  | .genMinRes, a, b, tol => gmresFn a b tol

/-- Modelled from the spec: the Newton error measure and stopping rule as
§4.5 states them — `err = Σ(Δx_i·step_size)²` — in an otherwise identical
loop (the source instead computes `Σ Δx_i²`, solver.rs line 112).  Used
only to compare against `nrLoop`. -/
def nrLoopSpecC4 (linSolve : List Triplet → List ℚ → ℚ → Outcome (List ℚ))
    (diodeEq : ℚ → ℚ × ℚ) (dt : ℚ) (map : PrimitiveDiagramMapping)
    (d : PrimitiveDiagram) (cfg : SolverConfig) (prev : List ℚ) :
    ℕ → List ℚ → ℚ → Outcome (Option (List ℚ))
  | 0, st, _ => .ok (some st)
  | fuel + 1, st, lastErr =>
    match stamp diodeEq dt map d st prev cfg.nTimesteps with
    | none => .crash
    | some (mat, params) =>
      if params.length = 0 then .ok none
      else
        match linSolve mat (residualVec mat params st) cfg.dxSolnTolerance with
        | .crash => .crash
        | .err e => .err e
        | .ok delta =>
          let err := (delta.map (fun x => (x * cfg.nrStepSize) * (x * cfg.nrStepSize))).sum
          let _ := lastErr
          let st' := updateState st delta cfg.nrStepSize
          if err < cfg.nrTolerance then .ok (some st')
          else nrLoopSpecC4 linSolve diodeEq dt map d cfg prev fuel st' err

/-- Modelled from the spec: Linear mode as §4.5 describes it — "single
stamp + single solve using the previous converged state as the reference
point", replacing the solution buffer with the solved result (this is also
the shape of the commented-out body, solver.rs lines 64-74, and of the
older dense_solver.rs implementation, which stamps a single block).  Used
only to compare against `linearStep`. -/
def linearStepSpecC6 (linSolve : List Triplet → List ℚ → ℚ → Outcome (List ℚ))
    (diodeEq : ℚ → ℚ × ℚ) (dt : ℚ) (map : PrimitiveDiagramMapping)
    (d : PrimitiveDiagram) (cfg : SolverConfig) (soln : List ℚ) :
    Outcome (List ℚ) :=
  match stamp diodeEq dt map d soln soln 1 with
  | none => .crash
  | some (mat, params) =>
    match linSolve mat params cfg.dxSolnTolerance with
    | .crash => .crash
    | .err e => .err e
    | .ok newSoln => .ok newSoln

/-- Modelled from the spec: the triplets §4.2 prescribes for an inductor's
constitutive row when one other inductor shares its `core_id` — the usual
`−L·I + dt·V_drop` row with `√(L_other)` subtracted from the `dt`
coefficient, the previous-timestep coupling, and `√L` added on the other
inductor's voltage-drop column.  The source has no `core_id` field at all
(lib.rs line 46: `Inductor(f32)`); used only to compare against
`stampComponent`. -/
def inductorArmSpecC8 (dt l lOther : ℚ) (offset prevOff law cur vdOther vd : ℕ) :
    List Triplet :=
  [(offset + law, offset + vd, dt - Rat.sqrt lOther),
   (offset + law, offset + cur, -l),
   (offset + law, prevOff + cur, l),
   (offset + law, offset + vdOther, Rat.sqrt l)]

/-- Trivial stand-in for `diode_eq`: the structural claims below never
depend on the diode coefficients. -/
def diodeEqZero : ℚ → ℚ × ℚ := fun _ => (0, 0)

/-- Linear solver oracle returning a fixed solution (models a successful
backend call). -/
def constSolver (v : List ℚ) : List Triplet → List ℚ → ℚ → Outcome (List ℚ) :=
  fun _ _ _ => .ok v

/-- Single 2-ohm resistor, one node: `vector_size = 2`. -/
def exampleResistor : PrimitiveDiagram :=
  ⟨1, [((0, 0), .resistor 2)], []⟩

/-- Single 5-volt battery between nodes 0 and 1: `vector_size = 3`. -/
def exampleBattery : PrimitiveDiagram :=
  ⟨2, [((0, 1), .battery 5)], []⟩

/-- Single NPN transistor on nodes 0,1,2. -/
def exampleTransistor : PrimitiveDiagram :=
  ⟨3, [], [((0, 1, 2), .nTransistor 100)]⟩

/-- Newton-Raphson configuration fixture. -/
def cfgNR (nT iters : ℕ) (tol s : ℚ) : SolverConfig :=
  ⟨iters, s, tol, 1 / 1000, .newtonRaphson, nT⟩

/-- Linear-mode configuration fixture. -/
def cfgLin : SolverConfig :=
  ⟨1, 1 / 10, 1 / 1000000, 1 / 1000, .linear, 1⟩

/-- Components whose stamping arm never writes the parameter vector
(resistor, wire, switch arms of stamp.rs lines 167-208). -/
def TwoTerminalComponent.writesNoParam : TwoTerminalComponent → Bool
  | .wire => true
  | .resistor _ => true
  | .switch _ => true
  | _ => false

/-- Diagrams whose stamping performs no parameter write and no
three-terminal unwrap: the only diagrams `stamp` completes on. -/
def PrimitiveDiagram.stampSafe (d : PrimitiveDiagram) : Bool :=
  d.twoTerminal.all (fun e => e.2.writesNoParam) && d.threeTerminal.isEmpty

/-- C9: for every topology the parameter mapping's total length
(components + current laws + voltage laws) equals the state mapping's
total length (currents + voltage drops + voltages), and
`Mapping::new(topology).vector_size()` equals both (map.rs lines 37-41,
66-68, 94-96). -/
theorem mapping_total_lengths_agree (d : PrimitiveDiagram) :
    (PrimitiveDiagramParameterMapping.new d).totalLen
        = (PrimitiveDiagramStateVectorMapping.new d).totalLen
      ∧ (PrimitiveDiagramMapping.new d).vectorSize
        = (PrimitiveDiagramStateVectorMapping.new d).totalLen
      ∧ (PrimitiveDiagramMapping.new d).vectorSize
        = (PrimitiveDiagramParameterMapping.new d).totalLen := by
  refine ⟨?_, rfl, ?_⟩ <;>
    simp [PrimitiveDiagramParameterMapping.new, PrimitiveDiagramStateVectorMapping.new,
      PrimitiveDiagramParameterMapping.totalLen, PrimitiveDiagramStateVectorMapping.totalLen,
      PrimitiveDiagramMapping.new, PrimitiveDiagramMapping.vectorSize] <;> omega

/-- Updating the state in place keeps its length (solver.rs line 120). -/
lemma length_updateState (st delta : List ℚ) (s : ℚ) :
    (updateState st delta s).length = st.length := by
  simp [updateState]
  omega

/-- Cycling a nonempty previous block to the window length yields exactly
the requested length (solver.rs line 83). -/
lemma length_cycleTake (xs : List ℚ) (h : xs ≠ []) (n : ℕ) :
    (cycleTake xs n).length = n := by
  simp [cycleTake, h]

/-- The two-terminal current-law loop succeeds whenever the currents range
has room for every component, returning the advanced counter. -/
lemma currentLawsTwo_ok (map : PrimitiveDiagramMapping) (off : ℕ)
    (l : List ((ℕ × ℕ) × TwoTerminalComponent)) :
    ∀ (idx : ℕ) (tr : List Triplet), idx + l.length ≤ map.stateMap.nCurrents →
    ∃ tr', currentLawsTwo map off l idx tr = some (tr', idx + l.length) := by
  induction l with
  | nil => intro idx tr _; exact ⟨tr, by simp [currentLawsTwo]⟩
  | cons hd rest ih =>
    intro idx tr h
    obtain ⟨⟨b, e⟩, c⟩ := hd
    have hidx : idx < map.stateMap.nCurrents := by
      simp only [List.length_cons] at h; omega
    have h' : (idx + 1) + rest.length ≤ map.stateMap.nCurrents := by
      simp only [List.length_cons] at h; omega
    simp only [currentLawsTwo, PrimitiveDiagramStateVectorMapping.currentsNth,
      if_pos hidx, Option.some_bind]
    have hlen : idx + (rest.length + 1) = (idx + 1) + rest.length := by omega
    simp only [List.length_cons, hlen]
    exact ih (idx + 1) _ h'

/-- The two-terminal voltage-law loop succeeds whenever the voltage-law and
voltage-drop ranges have room for every component. -/
lemma voltageLawsTwo_ok (map : PrimitiveDiagramMapping) (off : ℕ)
    (l : List ((ℕ × ℕ) × TwoTerminalComponent)) :
    ∀ (idx : ℕ) (tr : List Triplet),
    idx + l.length ≤ map.paramMap.nVoltageLaws →
    idx + l.length ≤ map.stateMap.nVoltageDrops →
    ∃ tr', voltageLawsTwo map off l idx tr = some (tr', idx + l.length) := by
  induction l with
  | nil => intro idx tr _ _; exact ⟨tr, by simp [voltageLawsTwo]⟩
  | cons hd rest ih =>
    intro idx tr h1 h2
    obtain ⟨⟨b, e⟩, c⟩ := hd
    have hi1 : idx < map.paramMap.nVoltageLaws := by
      simp only [List.length_cons] at h1; omega
    have hi2 : idx < map.stateMap.nVoltageDrops := by
      simp only [List.length_cons] at h2; omega
    simp only [voltageLawsTwo, PrimitiveDiagramParameterMapping.voltageLawsNth,
      PrimitiveDiagramStateVectorMapping.voltageDropsNth, if_pos hi1, if_pos hi2,
      Option.some_bind]
    have hlen : idx + (rest.length + 1) = (idx + 1) + rest.length := by omega
    simp only [List.length_cons, hlen]
    exact ih (idx + 1) _ (by simp only [List.length_cons] at h1; omega)
      (by simp only [List.length_cons] at h2; omega)

/-- The resistor, wire and switch arms never touch the parameter slice and
never fail (stamp.rs lines 167-208). -/
lemma stampComponent_writesNoParam (dE : ℚ → ℚ × ℚ) (dt : ℚ)
    (map : PrimitiveDiagramMapping) (offset prevOff law cur vd : ℕ)
    (nodes : ℕ × ℕ) (lastIter : List ℚ) (lastTs : Option (List ℚ))
    (tr : List Triplet) (params : List ℚ) (c : TwoTerminalComponent)
    (h : c.writesNoParam = true) :
    ∃ tr', stampComponent dE dt map offset prevOff law cur vd nodes lastIter lastTs tr params c
      = some (tr', params) := by
  cases c with
  | wire => exact ⟨_, rfl⟩
  | resistor r => exact ⟨_, rfl⟩
  | switch o => cases o <;> exact ⟨_, rfl⟩
  | inductor l => simp [TwoTerminalComponent.writesNoParam] at h
  | capacitor a => simp [TwoTerminalComponent.writesNoParam] at h
  | diode => simp [TwoTerminalComponent.writesNoParam] at h
  | battery v => simp [TwoTerminalComponent.writesNoParam] at h
  | currentSource i => simp [TwoTerminalComponent.writesNoParam] at h

/-- The two-terminal component loop leaves the parameter slice untouched
and succeeds when every component writes no parameter. -/
lemma componentsTwo_ok (dE : ℚ → ℚ × ℚ) (dt : ℚ) (map : PrimitiveDiagramMapping)
    (offset prevOff : ℕ) (lastIter : List ℚ) (lastTs : Option (List ℚ))
    (l : List ((ℕ × ℕ) × TwoTerminalComponent)) :
    ∀ (idx : ℕ) (tr : List Triplet) (params : List ℚ),
    (∀ x ∈ l, x.2.writesNoParam = true) →
    idx + l.length ≤ map.paramMap.nComponents →
    idx + l.length ≤ map.stateMap.nCurrents →
    idx + l.length ≤ map.stateMap.nVoltageDrops →
    ∃ tr', componentsTwo dE dt map offset prevOff lastIter lastTs l idx tr params
      = some (tr', params, idx + l.length) := by
  induction l with
  | nil => intro idx tr params _ _ _ _; exact ⟨tr, by simp [componentsTwo]⟩
  | cons hd rest ih =>
    intro idx tr params hsafe h1 h2 h3
    obtain ⟨nodes, c⟩ := hd
    have hc : c.writesNoParam = true := hsafe _ (List.mem_cons_self _ _)
    have hi1 : idx < map.paramMap.nComponents := by
      simp only [List.length_cons] at h1; omega
    have hi2 : idx < map.stateMap.nCurrents := by
      simp only [List.length_cons] at h2; omega
    have hi3 : idx < map.stateMap.nVoltageDrops := by
      simp only [List.length_cons] at h3; omega
    obtain ⟨trc, hcomp⟩ := stampComponent_writesNoParam dE dt map offset prevOff idx idx
      (map.stateMap.nCurrents + idx) nodes lastIter lastTs tr params c hc
    simp only [componentsTwo, PrimitiveDiagramParameterMapping.componentsNth,
      PrimitiveDiagramStateVectorMapping.currentsNth,
      PrimitiveDiagramStateVectorMapping.voltageDropsNth,
      if_pos hi1, if_pos hi2, if_pos hi3, Option.bind_eq_bind, Option.some_bind, hcomp]
    have hlen : idx + (rest.length + 1) = (idx + 1) + rest.length := by omega
    simp only [List.length_cons, hlen]
    exact ih (idx + 1) trc params (fun x hx => hsafe x (List.mem_cons_of_mem _ hx))
      (by simp only [List.length_cons] at h1; omega)
      (by simp only [List.length_cons] at h2; omega)
      (by simp only [List.length_cons] at h3; omega)

/-- A stamp-safe diagram has only parameter-free two-terminal components. -/
lemma stampSafe_two (d : PrimitiveDiagram) (h : d.stampSafe = true) :
    ∀ x ∈ d.twoTerminal, x.2.writesNoParam = true := by
  simp only [PrimitiveDiagram.stampSafe, Bool.and_eq_true, List.all_eq_true] at h
  exact fun x hx => h.1 x hx

/-- A stamp-safe diagram has no three-terminal components. -/
lemma stampSafe_three (d : PrimitiveDiagram) (h : d.stampSafe = true) :
    d.threeTerminal = [] := by
  simp only [PrimitiveDiagram.stampSafe, Bool.and_eq_true, List.isEmpty_iff] at h
  exact h.2

/-- Stamping one block of a stamp-safe diagram succeeds and leaves the
parameter slice unchanged. -/
lemma stampTimestep_ok (dE : ℚ → ℚ × ℚ) (dt : ℚ) (d : PrimitiveDiagram)
    (h : d.stampSafe = true) (params : List ℚ) (tr : List Triplet)
    (k : ℕ) (lastIter : List ℚ) (lastTs : Option (List ℚ)) (nT : ℕ) :
    ∃ tr', stampTimestep dE params tr k dt (PrimitiveDiagramMapping.new d) d lastIter lastTs nT
      = some (tr', params) := by
  have h3 := stampSafe_three d h
  have hn : (PrimitiveDiagramMapping.new d).stateMap.nCurrents = d.twoTerminal.length := rfl
  have hv : (PrimitiveDiagramMapping.new d).stateMap.nVoltageDrops = d.twoTerminal.length := rfl
  have hl : (PrimitiveDiagramMapping.new d).paramMap.nVoltageLaws = d.twoTerminal.length := rfl
  have hcmp : (PrimitiveDiagramMapping.new d).paramMap.nComponents = d.twoTerminal.length := rfl
  obtain ⟨tr1, h1⟩ := currentLawsTwo_ok (PrimitiveDiagramMapping.new d)
    ((PrimitiveDiagramMapping.new d).vectorSize * nT * k) d.twoTerminal 0 tr (by omega)
  obtain ⟨tr2, h2⟩ := voltageLawsTwo_ok (PrimitiveDiagramMapping.new d)
    ((PrimitiveDiagramMapping.new d).vectorSize * nT * k) d.twoTerminal 0 tr1
    (by omega) (by omega)
  obtain ⟨tr3, hc⟩ := componentsTwo_ok dE dt (PrimitiveDiagramMapping.new d)
    ((PrimitiveDiagramMapping.new d).vectorSize * nT * k)
    (((PrimitiveDiagramMapping.new d).vectorSize * nT - 1) * k) lastIter lastTs
    d.twoTerminal 0 tr2 params (stampSafe_two d h) (by omega) (by omega) (by omega)
  simp only [stampTimestep, h3, h1, h2, hc, currentLawsThree, voltageLawsThree,
    componentsThree, Option.bind_eq_bind, Option.some_bind]
  exact ⟨tr3, rfl⟩

/-- Single-window stamping of a stamp-safe diagram succeeds: block 0's
params slice is the empty `params[0..0]`, nothing writes into it, and the
write-back leaves the zero-initialised parameter vector intact. -/
lemma stamp_ok (dE : ℚ → ℚ × ℚ) (dt : ℚ) (d : PrimitiveDiagram)
    (h : d.stampSafe = true) (lastIter lastTs : List ℚ) :
    ∃ tr', stamp dE dt (PrimitiveDiagramMapping.new d) d lastIter lastTs 1
      = some (tr', List.replicate ((PrimitiveDiagramMapping.new d).vectorSize * 1) 0) := by
  obtain ⟨tr', hts⟩ := stampTimestep_ok dE dt d h [] [] 0 lastIter (some lastTs) 1
  simp only [stamp, stampLoop, List.range_succ, List.range_zero, Nat.zero_mul, Nat.mul_zero,
    List.nil_append, List.drop_zero, List.take_zero, Nat.sub_zero, Nat.le_refl,
    List.length_replicate, Nat.zero_le, and_self, if_true, Option.bind_eq_bind,
    Option.some_bind, if_pos]
  rw [hts]
  exact ⟨tr', by simp⟩

/-- The Newton loop on a stamp-safe single-timestep configuration can only
exit through the normal paths: it always produces `ok (some st')` with the
state length preserved, whatever the (always succeeding) linear solver
returns and however many iterations remain. -/
lemma nrLoop_ok (g : List Triplet → List ℚ → ℚ → List ℚ) (dE : ℚ → ℚ × ℚ) (dt : ℚ)
    (d : PrimitiveDiagram) (cfg : SolverConfig) (prev : List ℚ)
    (hsafe : d.stampSafe = true) (hnT : cfg.nTimesteps = 1)
    (hvs : 0 < (PrimitiveDiagramMapping.new d).vectorSize) :
    ∀ (fuel : ℕ) (st : List ℚ) (lastErr : ℚ),
    ∃ st', nrLoop (fun m f t => .ok (g m f t)) dE dt (PrimitiveDiagramMapping.new d)
        d cfg prev fuel st lastErr = .ok (some st')
      ∧ st'.length = st.length := by
  intro fuel
  induction fuel with
  | zero => intro st e; exact ⟨st, rfl, rfl⟩
  | succ n ih =>
    intro st e
    obtain ⟨tr', hstamp⟩ := stamp_ok dE dt d hsafe st prev
    have hlen : ¬ ((List.replicate ((PrimitiveDiagramMapping.new d).vectorSize * 1) (0:ℚ)).length = 0) := by
      simp only [List.length_replicate]
      omega
    simp only [nrLoop, hnT, hstamp, hlen, if_false, reduceIte]
    split
    · exact ⟨_, rfl, length_updateState _ _ _⟩
    · obtain ⟨st'', h'', hl⟩ := ih (updateState st
        (g tr' (residualVec tr' (List.replicate ((PrimitiveDiagramMapping.new d).vectorSize * 1) 0) st)
          cfg.dxSolnTolerance) cfg.nrStepSize) _
      exact ⟨st'', h'', by rw [hl, length_updateState]⟩

/-- C1: refuted on the code — `stamp` does NOT complete on every valid
topology.  The params slice for block 0 is `params[0..0]` (stamp.rs line
27), so the battery arm's parameter write (line 211) indexes an empty
slice and panics even for this perfectly well-formed diagram (one 5 V
battery, both node indices < num_nodes, n_timesteps = 1, both input slices
of the documented length `vector_size = 3`). -/
theorem stamp_panics_on_valid_battery_input :
    stamp diodeEqZero (1 / 100) (PrimitiveDiagramMapping.new exampleBattery) exampleBattery
      [0, 0, 0] [0, 0, 0] 1 = none := by decide

/-- C2: refuted on the code — block `k` of `stamp_timestep` does not sit at
offset `k × vector_size`.  With `vector_size = 2` and `n_timesteps = 2`,
block 1 of the one-resistor diagram is stamped at rows/columns 4 and 5
(`offset = n × k` with `n = vector_size × n_timesteps`, stamp.rs lines
53-54), not at the claimed rows 2 and 3; and `stamp` itself panics before
ever stamping block 1, because the slice `params[1*n .. 1*(n+1)]` (line
27) exceeds the parameter vector. -/
theorem stamp_timestep_block_offset_mismatch :
    stampTimestep diodeEqZero [] [] 1 (1 / 100) (PrimitiveDiagramMapping.new exampleResistor)
        exampleResistor [0, 0, 0, 0] none 2
      = some ([(5, 5, 1), (4, 4, -2), (4, 5, 1)], [])
    ∧ (PrimitiveDiagramMapping.new exampleResistor).vectorSize = 2
    ∧ stamp diodeEqZero (1 / 100) (PrimitiveDiagramMapping.new exampleResistor)
        exampleResistor [0, 0, 0, 0] [0, 0] 2 = none :=
  ⟨by decide, rfl, by decide⟩

/-- C3: refuted on the code — the index mapping gives three-terminal
components no slots at all: `n_currents` (and every other count, map.rs
lines 44-50 and 72-78) is computed from `two_terminal` alone, so for the
one-transistor diagram the currents range has length 0, not
`0 + 2 × 1 = 2`, and `stamp` panics on the transistor's
`currents().nth(0).unwrap()` (stamp.rs line 75). -/
theorem mapping_gives_three_terminal_no_slots :
    (PrimitiveDiagramStateVectorMapping.new exampleTransistor).nCurrents = 0
    ∧ exampleTransistor.twoTerminal.length
        + 2 * exampleTransistor.threeTerminal.length = 2
    ∧ stamp diodeEqZero (1 / 100) (PrimitiveDiagramMapping.new exampleTransistor)
        exampleTransistor [0, 0] [0, 0] 1 = none :=
  ⟨rfl, rfl, by decide⟩

/-- C4 (amended): the error compared against `nr_tolerance` after each
solve is `Σ Δx_i²` — the step size enters only the state update, not the
error — and the loop's behaviour is entirely independent of the previous
iteration's error (`last_err` feeds the empty `if err > last_err` body of
solver.rs lines 114-117): there is no step-size halving and no retry. -/
theorem nr_error_measure_and_no_damping
    (ls : List Triplet → List ℚ → ℚ → Outcome (List ℚ)) (dE : ℚ → ℚ × ℚ) (dt : ℚ)
    (map : PrimitiveDiagramMapping) (d : PrimitiveDiagram) (cfg : SolverConfig)
    (prev : List ℚ) (fuel : ℕ) (st : List ℚ) (e e₁ e₂ : ℚ)
    (mat : List Triplet) (params delta : List ℚ) :
    nrLoop ls dE dt map d cfg prev fuel st e₁ = nrLoop ls dE dt map d cfg prev fuel st e₂
    ∧ (stamp dE dt map d st prev cfg.nTimesteps = some (mat, params) →
       params.length ≠ 0 →
       ls mat (residualVec mat params st) cfg.dxSolnTolerance = .ok delta →
       nrLoop ls dE dt map d cfg prev (fuel + 1) st e =
         if ((delta.map fun x => x * x).sum < cfg.nrTolerance)
         then .ok (some (updateState st delta cfg.nrStepSize))
         else nrLoop ls dE dt map d cfg prev fuel (updateState st delta cfg.nrStepSize)
           ((delta.map fun x => x * x).sum)) := by
  constructor
  · cases fuel with
    | zero => rfl
    | succ n => rfl
  · intro h1 h2 h3
    simp only [nrLoop, h1, h3, h2, if_false, reduceIte]

/-- Witness for `nr_error_measure_and_no_damping` at the one-resistor
diagram with a constant solver returning `Δx = [2, 2]`. -/
theorem nr_error_measure_and_no_damping_witness :
    nrLoop (constSolver [2, 2]) diodeEqZero (1 / 100)
        (PrimitiveDiagramMapping.new exampleResistor) exampleResistor
        (cfgNR 1 2 1 (1 / 10)) [0, 0] 1 [0, 0] 0
      = nrLoop (constSolver [2, 2]) diodeEqZero (1 / 100)
        (PrimitiveDiagramMapping.new exampleResistor) exampleResistor
        (cfgNR 1 2 1 (1 / 10)) [0, 0] 1 [0, 0] 55
    ∧ nrLoop (constSolver [2, 2]) diodeEqZero (1 / 100)
        (PrimitiveDiagramMapping.new exampleResistor) exampleResistor
        (cfgNR 1 2 1 (1 / 10)) [0, 0] (1 + 1) [0, 0] 0
      = if ((([2, 2] : List ℚ).map fun x => x * x).sum < (cfgNR 1 2 1 (1 / 10)).nrTolerance)
        then .ok (some (updateState [0, 0] [2, 2] (cfgNR 1 2 1 (1 / 10)).nrStepSize))
        else nrLoop (constSolver [2, 2]) diodeEqZero (1 / 100)
          (PrimitiveDiagramMapping.new exampleResistor) exampleResistor
          (cfgNR 1 2 1 (1 / 10)) [0, 0] 1
          (updateState [0, 0] [2, 2] (cfgNR 1 2 1 (1 / 10)).nrStepSize)
          ((([2, 2] : List ℚ).map fun x => x * x).sum) := by
  have h := nr_error_measure_and_no_damping (constSolver [2, 2]) diodeEqZero (1 / 100)
    (PrimitiveDiagramMapping.new exampleResistor) exampleResistor (cfgNR 1 2 1 (1 / 10))
    [0, 0] 1 [0, 0] 0 0 55 [(1, 1, 1), (0, 0, -2), (0, 1, 1)] [0, 0] [2, 2]
  exact ⟨h.1, h.2 (by decide) (by decide) (by decide)⟩

/-- C4 counterexample: the loop as the spec words it (error
`Σ(Δx_i·step_size)²`) behaves differently from the source loop on a
concrete run — with `Δx = [2, 2]`, step size `1/10` and tolerance `1`,
the spec's error `2/25` stops after one iteration at `[1/5, 1/5]` while
the code's error `8` keeps iterating to `[2/5, 2/5]`. -/
theorem nr_error_measure_spec_counterexample :
    nrLoop (constSolver [2, 2]) diodeEqZero (1 / 100)
        (PrimitiveDiagramMapping.new exampleResistor) exampleResistor
        (cfgNR 1 2 1 (1 / 10)) [0, 0] 2 [0, 0] (9 * 10 ^ 99)
      ≠ nrLoopSpecC4 (constSolver [2, 2]) diodeEqZero (1 / 100)
        (PrimitiveDiagramMapping.new exampleResistor) exampleResistor
        (cfgNR 1 2 1 (1 / 10)) [0, 0] 2 [0, 0] (9 * 10 ^ 99) := by decide

/-- C5: in Newton-Raphson mode, when every linear solve succeeds (the
backend is the total function `g` wrapped in `Ok`) and the stamping layer
itself cannot panic (stamp-safe diagram, one-block window, nonzero vector
size), `step` returns `Ok` even when `max_nr_iters` iterations are
exhausted without meeting `nr_tolerance` — no convergence hypothesis
appears below — and the solution buffer is exactly the Newton loop's final
iterate. -/
theorem step_nr_ok_without_convergence
    (g : List Triplet → List ℚ → ℚ → List ℚ) (dE : ℚ → ℚ × ℚ) (dt : ℚ)
    (d : PrimitiveDiagram) (cfg : SolverConfig) (soln : List ℚ)
    (hmode : cfg.mode = .newtonRaphson) (hsafe : d.stampSafe = true)
    (hnT : cfg.nTimesteps = 1)
    (hvs : 0 < (PrimitiveDiagramMapping.new d).vectorSize) :
    ∃ st, nrLoop (fun m f t => .ok (g m f t)) dE dt (PrimitiveDiagramMapping.new d)
        d cfg soln cfg.maxNrIters
        (cycleTake soln (cfg.nTimesteps * (PrimitiveDiagramMapping.new d).vectorSize))
        (9 * 10 ^ 99) = .ok (some st)
      ∧ step (fun m f t => .ok (g m f t)) dE dt (PrimitiveDiagramMapping.new d)
          d cfg soln = .ok st := by
  obtain ⟨st', hloop, _⟩ := nrLoop_ok g dE dt d cfg soln hsafe hnT hvs cfg.maxNrIters
    (cycleTake soln (cfg.nTimesteps * (PrimitiveDiagramMapping.new d).vectorSize))
    (9 * 10 ^ 99)
  refine ⟨st', hloop, ?_⟩
  rw [hnT] at hloop
  simp only [step, hmode, nrStep, hnT, Nat.sub_self, Nat.zero_mul, Nat.zero_le, if_pos,
    List.drop_zero, if_true]
  rw [hloop]

/-- Witness for `step_nr_ok_without_convergence`: one resistor, two Newton
iterations at tolerance 1 with a constant `Δx = [2, 2]` (which never
converges), still `Ok`. -/
theorem step_nr_ok_without_convergence_witness :
    ∃ st, nrLoop (fun m f t => .ok ((fun _ _ _ => [2, 2] : List Triplet → List ℚ → ℚ → List ℚ) m f t))
        diodeEqZero (1 / 100) (PrimitiveDiagramMapping.new exampleResistor) exampleResistor
        (cfgNR 1 2 1 (1 / 10)) [0, 0] (cfgNR 1 2 1 (1 / 10)).maxNrIters
        (cycleTake [0, 0] ((cfgNR 1 2 1 (1 / 10)).nTimesteps
          * (PrimitiveDiagramMapping.new exampleResistor).vectorSize))
        (9 * 10 ^ 99) = .ok (some st)
      ∧ step (fun m f t => .ok ((fun _ _ _ => [2, 2] : List Triplet → List ℚ → ℚ → List ℚ) m f t))
          diodeEqZero (1 / 100) (PrimitiveDiagramMapping.new exampleResistor) exampleResistor
          (cfgNR 1 2 1 (1 / 10)) [0, 0] = .ok st :=
  step_nr_ok_without_convergence (fun _ _ _ => [2, 2]) diodeEqZero (1 / 100)
    exampleResistor (cfgNR 1 2 1 (1 / 10)) [0, 0] rfl (by decide) rfl (by decide)

/-- C6 (amended): in Linear mode `step` performs no stamp and no solve —
the entire body of `linear_step` is commented out (solver.rs lines 64-74)
— and returns `Ok(())` with the solution buffer unchanged. -/
theorem linear_step_is_noop
    (ls : List Triplet → List ℚ → ℚ → Outcome (List ℚ)) (dE : ℚ → ℚ × ℚ) (dt : ℚ)
    (map : PrimitiveDiagramMapping) (d : PrimitiveDiagram) (cfg : SolverConfig)
    (soln : List ℚ) (hmode : cfg.mode = .linear) :
    step ls dE dt map d cfg soln = .ok soln
    ∧ linearStep dt d cfg soln = .ok soln := by
  refine ⟨?_, rfl⟩
  simp only [step, hmode, linearStep]

/-- Witness for `linear_step_is_noop` at the one-resistor diagram. -/
theorem linear_step_is_noop_witness :
    step (constSolver [7, 7]) diodeEqZero (1 / 100)
        (PrimitiveDiagramMapping.new exampleResistor) exampleResistor cfgLin [0, 0]
      = .ok [0, 0]
    ∧ linearStep (1 / 100) exampleResistor cfgLin [0, 0] = .ok [0, 0] :=
  linear_step_is_noop (constSolver [7, 7]) diodeEqZero (1 / 100)
    (PrimitiveDiagramMapping.new exampleResistor) exampleResistor cfgLin [0, 0] rfl

/-- C6 counterexample: the Linear mode the spec describes (one stamp, one
solve, buffer replaced by the solved result) differs from the code's
`linear_step` on a concrete run — a solver returning `[7, 7]` would leave
the buffer at `[7, 7]`, but the code leaves it at `[0, 0]`. -/
theorem linear_step_spec_counterexample :
    linearStep (1 / 100) exampleResistor cfgLin [0, 0]
      ≠ linearStepSpecC6 (constSolver [7, 7]) diodeEqZero (1 / 100)
          (PrimitiveDiagramMapping.new exampleResistor) exampleResistor cfgLin [0, 0] := by
  decide

/-- C7 (amended): the biconjugate-gradient backend has no error-returning
path at all: whatever the system, the right-hand side and the tolerance,
`solve()` with the BiCG selection returns `Ok` after at most 100
iterations (in `f64` it may alternatively panic on a NaN residual, which
is not an `Err` either); exceeding the iteration cap is never surfaced as
an error. -/
theorem bicg_solve_never_errors
    (lusolFn gmresFn : List (List ℚ) → List ℚ → ℚ → Outcome (List ℚ))
    (a : List (List ℚ)) (b : List ℚ) (tol : ℚ) :
    ∃ x, solveWith lusolFn gmresFn .biconjugateGradient a b tol = .ok x :=
  ⟨_, rfl⟩

/-- C7 counterexample: on `A = [[1]]`, `b = [0]` with tolerance `-1` the
residual `rᵀr` (a sum of squares) can never go below the tolerance, so the
100-iteration cap is exhausted without convergence — yet `solve()` returns
`Ok` (with the returned solution's residual still not below tolerance),
not an error containing the residual. -/
theorem bicg_cap_exhausted_returns_ok :
    solveWith (fun _ _ _ => .crash) (fun _ _ _ => .crash) .biconjugateGradient
        [[1]] [0] (-1) = .ok [0]
    ∧ ¬ (dot (vecSub [0] (matVec [[1]] [0])) (vecSub [0] (matVec [[1]] [0])) < (-1 : ℚ)) :=
  ⟨by decide, by decide⟩

/-- C8 (amended): the inductor is stamped from its inductance alone — the
arm appends exactly the component's own `dt`-on-voltage-drop and
`−L`-on-current coefficients plus the previous-block coupling on its own
current column (stamp.rs lines 222-230); there is no `core_id` field on
`Inductor` (lib.rs line 46) and no mutual-coupling entry on any other
inductor's columns. -/
theorem inductor_arm_exact_entries (dE : ℚ → ℚ × ℚ) (dt : ℚ)
    (map : PrimitiveDiagramMapping) (offset prevOff law cur vd : ℕ)
    (nodes : ℕ × ℕ) (lastIter : List ℚ) (tr : List Triplet) (params : List ℚ)
    (l : ℚ) :
    stampComponent dE dt map offset prevOff law cur vd nodes lastIter none tr params
        (.inductor l)
      = some (tr ++ [(offset + law, offset + vd, dt), (offset + law, offset + cur, -l),
          (offset + law, prevOff + cur, l)], params) := by
  simp [stampComponent]

/-- C8 counterexample: for an inductor `L = 4` whose supposed core partner
has `L_other = 9` (so `√L_other = 3` should be subtracted from the `dt`
coefficient and `√L = 2` placed on the partner's voltage-drop column 3),
the code's inductor arm produces plain uncoupled entries, not the
spec-modelled coupled ones. -/
theorem inductor_no_coupling_counterexample :
    stampComponent diodeEqZero 10 (PrimitiveDiagramMapping.new exampleResistor)
        0 0 0 0 2 (0, 1) [] none [] [] (.inductor 4)
      ≠ some (inductorArmSpecC8 10 4 9 0 0 0 0 3 2, []) := by
  have h9 : Rat.sqrt 9 = 3 := by
    have h : (9 : ℚ) = 3 * 3 := by norm_num
    rw [h, Rat.sqrt_eq]
    norm_num
  have h4 : Rat.sqrt 4 = 2 := by
    have h : (4 : ℚ) = 2 * 2 := by norm_num
    rw [h, Rat.sqrt_eq]
    norm_num
  simp only [inductorArmSpecC8, h9, h4]
  decide

/-- C10 (amended): after a Newton-Raphson `step` that reaches the final
buffer assignment (stamp-safe diagram, `cfg.n_timesteps = 1` — the only
window size the stamping layer survives —, nonzero vector size, nonempty
old buffer), the buffer is replaced by a vector of length
`cfg.n_timesteps × vector_size`, the `n_timesteps` of the `SolverConfig`
passed to `step`, regardless of the length the buffer had before. -/
theorem step_nr_buffer_length
    (g : List Triplet → List ℚ → ℚ → List ℚ) (dE : ℚ → ℚ × ℚ) (dt : ℚ)
    (d : PrimitiveDiagram) (cfg : SolverConfig) (soln : List ℚ)
    (hmode : cfg.mode = .newtonRaphson) (hsafe : d.stampSafe = true)
    (hnT : cfg.nTimesteps = 1)
    (hvs : 0 < (PrimitiveDiagramMapping.new d).vectorSize)
    (hsoln : soln ≠ []) :
    ∃ st, step (fun m f t => .ok (g m f t)) dE dt (PrimitiveDiagramMapping.new d)
        d cfg soln = .ok st
      ∧ st.length = cfg.nTimesteps * (PrimitiveDiagramMapping.new d).vectorSize := by
  obtain ⟨st', hloop, hlen⟩ := nrLoop_ok g dE dt d cfg soln hsafe hnT hvs cfg.maxNrIters
    (cycleTake soln (cfg.nTimesteps * (PrimitiveDiagramMapping.new d).vectorSize))
    (9 * 10 ^ 99)
  refine ⟨st', ?_, ?_⟩
  · rw [hnT] at hloop
    simp only [step, hmode, nrStep, hnT, Nat.sub_self, Nat.zero_mul, Nat.zero_le, if_pos,
      List.drop_zero, if_true]
    rw [hloop]
  · rw [hlen, length_cycleTake soln hsoln]

/-- Witness for `step_nr_buffer_length`: a four-element stale buffer
shrinks to `1 × vector_size = 2` on the one-resistor diagram. -/
theorem step_nr_buffer_length_witness :
    ∃ st, step (fun m f t => .ok ((fun _ _ _ => [2, 2] : List Triplet → List ℚ → ℚ → List ℚ) m f t))
        diodeEqZero (1 / 100) (PrimitiveDiagramMapping.new exampleResistor) exampleResistor
        (cfgNR 1 2 1 (1 / 10)) [0, 0, 0, 0] = .ok st
      ∧ st.length = (cfgNR 1 2 1 (1 / 10)).nTimesteps
          * (PrimitiveDiagramMapping.new exampleResistor).vectorSize :=
  step_nr_buffer_length (fun _ _ _ => [2, 2]) diodeEqZero (1 / 100)
    exampleResistor (cfgNR 1 2 1 (1 / 10)) [0, 0, 0, 0] rfl (by decide) rfl (by decide)
    (by decide)

/-- C10 counterexample: with `cfg.n_timesteps = 0` and nonzero vector size
the stamped parameter vector is empty, so `nr_step` takes the early
`return Ok(())` (solver.rs lines 91-93) — a successful `step` after which
the buffer still has its old length 2, not
`cfg.n_timesteps × vector_size = 0`. -/
theorem step_nr_zero_window_counterexample :
    step (constSolver [2, 2]) diodeEqZero (1 / 100)
        (PrimitiveDiagramMapping.new exampleResistor) exampleResistor
        (cfgNR 0 5 (1 / 1000000) (1 / 10)) [0, 0] = .ok [0, 0]
    ∧ ¬ (([0, 0] : List ℚ).length = (cfgNR 0 5 (1 / 1000000) (1 / 10)).nTimesteps
          * (PrimitiveDiagramMapping.new exampleResistor).vectorSize) :=
  ⟨by decide, by decide⟩
